import Mathlib

/-!
Shallow embedding of `supabase-mcp-handler` (`src/mod.ts`), the
`createEdgeMCPServer` factory: a Hono app with a CORS middleware, an
optional logging middleware, a `GET /health` route, a `GET /` info route,
an `ALL /mcp` route forwarding to the externally bound MCP transport
handler, and optional mounting of the whole app under a normalized base
path.  HTTP requests and responses are modelled explicitly; the external
transport handler (`transport.bind(server)`) is a parameter of type
`Request → Response`, bound once per factory invocation.  The router
semantics modelled is Hono's actual behavior: middleware registered
with `use("*")` runs for every request reaching the (possibly mounted)
app; headers staged with `c.header` are merged only into responses
created through the context helpers (`c.json`, `c.text`, the default
404) and are NOT applied to a bare `Response` returned directly from a
middleware or handler — so the OPTIONS short-circuit 204 and the `/mcp`
pass-through response never carry them; a middleware returning a
response short-circuits the rest of the chain; routes match their
registered path exactly (Hono default strict mode); and mounting
(`root.route(base, app)`) re-registers the inner app's routes under the
base prefix with `mergePath`, which collapses the joining slash (the
inner `/` route lands at the bare base path; for a base ending in `/`
the trailing slash is absorbed, so `basePath "/"` mounts identically to
the unmounted app) and scopes the inner middleware to the merged
`base/*` sub-tree.
-/

/-- A JSON value, as produced by Hono's `c.json`.  Only the constructors
the embedded code needs. -/
inductive Json where
  | str : String → Json
  | obj : List (String × Json) → Json

/-- An HTTP response body: `null` (e.g. the 204 short-circuit), a plain
text body (e.g. Hono's default 404), or a JSON body. -/
inductive Body where
  | empty : Body
  | text : String → Body
  | json : Json → Body

/-- An HTTP response: status code, headers, body. -/
structure Response where
  status : Nat
  headers : List (String × String)
  body : Body

/-- An incoming HTTP request: method, path, and the value of the
`Origin` header when present. -/
structure Request where
  method : String
  path : String
  origin : Option String

/-- `corsOrigins` configuration value: a bare string or an array of
strings (`string | string[]` in `EdgeMCPConfig`). -/
inductive CorsOrigins where
  | str : String → CorsOrigins
  | arr : List String → CorsOrigins

/-- `EdgeMCPConfig` from `src/mod.ts`.  The opaque `schemaAdapter`
function is passed through to the external `McpServer` constructor
untouched and plays no role in routing, so it is not modelled. -/
structure EdgeMCPConfig where
  name : String
  version : Option String
  corsOrigins : Option CorsOrigins
  enableLogging : Option Bool
  basePath : Option String

/-- Result of dispatching one request: the response plus the log lines
emitted to the diagnostic output while handling it. -/
structure HandleResult where
  response : Response
  logs : List String

/-- Look up a header by name (first match). -/
def getHeader : List (String × String) → String → Option String
  | [], _ => none
  | (k', v) :: rest, k => if k' = k then some v else getHeader rest k

/-- Header lookup on a response. -/
def Response.header (r : Response) (k : String) : Option String :=
  getHeader r.headers k

/-- Set a header, replacing an existing entry of the same name
(`Headers.set` semantics). -/
def setHeader : List (String × String) → String → String → List (String × String)
  | [], k, v => [(k, v)]
  | (k', v') :: rest, k, v =>
      if k' = k then (k, v) :: rest else (k', v') :: setHeader rest k v

/-- Attach a list of staged headers (from `c.header` calls) to a
response, in order. -/
def applyHeaders (staged : List (String × String)) (r : Response) : Response :=
  { r with headers := staged.foldl (fun hs p => setHeader hs p.1 p.2) r.headers }

/-- The three headers the CORS middleware sets when the origin is
allowed, echoing the request origin. -/
def corsHeaders (origin : String) : List (String × String) :=
  [("Access-Control-Allow-Origin", origin),
   ("Access-Control-Allow-Methods", "GET, POST, OPTIONS"),
   ("Access-Control-Allow-Headers", "Content-Type, Authorization")]

/-- `const origin = c.req.header("Origin") || "*"`: an absent (or empty,
hence falsy) `Origin` header is treated as the wildcard. -/
def requestOrigin (req : Request) : String :=
  match req.origin with
  | some s => if s = "" then "*" else s
  | none => "*"

/-- `Array.isArray(config.corsOrigins) ? config.corsOrigins :
config.corsOrigins ? [config.corsOrigins] : ["*"]`: an array is used as
is, a non-empty (truthy) string is wrapped into a one-element list, and
an absent or empty-string value defaults to `["*"]`. -/
def corsAllowedOrigins (c : EdgeMCPConfig) : List String :=
  match c.corsOrigins with
  | some (CorsOrigins.arr l) => l
  | some (CorsOrigins.str s) => if s = "" then ["*"] else [s]
  | none => ["*"]

/-- The headers the CORS middleware stages for a request: the three CORS
headers when the allowed set contains `*` or the request origin
(`allowedOrigins.includes("*") || allowedOrigins.includes(origin)`),
nothing otherwise. -/
def corsStaged (c : EdgeMCPConfig) (req : Request) : List (String × String) :=
  if "*" ∈ corsAllowedOrigins c ∨ requestOrigin req ∈ corsAllowedOrigins c then
    corsHeaders (requestOrigin req)
  else
    []

/-- Response of `app.get("/health", (c) => c.json({ status: "ok" }))`. -/
def healthResponse : Response :=
  { status := 200
    headers := [("Content-Type", "application/json")]
    body := Body.json (Json.obj [("status", Json.str "ok")]) }

/-- `config.version || "1.0.0"`: the default version is substituted when
`version` is absent or the (falsy) empty string. -/
def resolvedVersion (c : EdgeMCPConfig) : String :=
  match c.version with
  | some v => if v = "" then "1.0.0" else v
  | none => "1.0.0"

/-- The JSON body of the root info route. -/
def rootInfoJson (c : EdgeMCPConfig) : Json :=
  Json.obj
    [("name", Json.str c.name),
     ("version", Json.str (resolvedVersion c)),
     ("status", Json.str "ok"),
     ("endpoints", Json.obj [("health", Json.str "./health"),
                             ("mcp", Json.str "./mcp")])]

/-- Response of the root info route `app.get("/", ...)`. -/
def rootInfoResponse (c : EdgeMCPConfig) : Response :=
  { status := 200
    headers := [("Content-Type", "application/json")]
    body := Body.json (rootInfoJson c) }

/-- Hono's default not-found response. -/
def notFoundResponse : Response :=
  { status := 404
    headers := [("Content-Type", "text/plain; charset=UTF-8")]
    body := Body.text "404 Not Found" }

/-- JavaScript `String.prototype.trim()`: strip leading and trailing
whitespace. -/
def jsTrim (s : String) : String :=
  ⟨(((s.data.dropWhile Char.isWhitespace).reverse.dropWhile Char.isWhitespace).reverse)⟩

/-- JavaScript `String.prototype.startsWith(p)`. -/
def strStartsWith (s p : String) : Bool :=
  p.data.isPrefixOf s.data

/-- JavaScript `String.prototype.endsWith(p)`. -/
def strEndsWith (s p : String) : Bool :=
  p.data.isSuffixOf s.data

/-- JavaScript `s.slice(0, -1)`: drop the last character. -/
def strDropLast (s : String) : String :=
  ⟨s.data.dropLast⟩

/-- Base-path normalization from `src/mod.ts`: trim, prepend `/` when
the path does not already start with one, and strip one trailing `/`
unless the path is exactly `/`. -/
def normalizeBase (bp : String) : String :=
  let base := jsTrim bp
  let base := if strStartsWith base "/" then base else "/" ++ base
  if base ≠ "/" ∧ strEndsWith base "/" then strDropLast base else base

/-- The mount decision `if (config.basePath && config.basePath.trim() !== "")`:
`some` normalized base when a non-blank base path is configured
(Mounted), `none` otherwise (Unmounted). -/
def mountBase (c : EdgeMCPConfig) : Option String :=
  match c.basePath with
  | none => none
  | some bp => if bp ≠ "" ∧ jsTrim bp ≠ "" then some (normalizeBase bp) else none

/-- The stem of a mount base: Hono's `mergePath` collapses the joining
slash, so a base ending in `/` contributes everything up to that slash
(`"/"` contributes the empty stem, mounting at the root). -/
def mountStem (base : String) : String :=
  if strEndsWith base "/" then strDropLast base else base

/-- Hono's `mergePath(base, sub)` for the paths this app mounts: the
inner `/` route lands at the bare base path, every other inner path is
appended to the stem (the joining slash collapsed). -/
def joinPath (base sub : String) : String :=
  if sub = "/" then base else mountStem base ++ sub

/-- Absolute path at which an inner route registered at `sub` is
reachable, given the mount state. -/
def routedPathM (mount : Option String) (sub : String) : String :=
  match mount with
  | none => sub
  | some base => joinPath base sub

/-- Whether the app's `use("*")` middleware runs for a request path:
everywhere when unmounted; at the merged `stem/*` pattern when mounted
(the stem itself or anything below it — Hono's tail wildcard). -/
def scopeMatches (mount : Option String) (p : String) : Bool :=
  match mount with
  | none => true
  | some base => p = mountStem base || (mountStem base ++ "/").data.isPrefixOf p.data

/-- What a matched route hands back: a response created through the
router context (`c.json` — staged headers are merged into it when the
chain finishes) or a raw `Response` returned directly (left untouched
by the context). -/
inductive RouteReply where
  | ctx : Response → RouteReply
  | raw : Response → RouteReply

/-- Route matching, in registration order: `GET /health`, `GET /`
(context-created JSON responses), then `ALL /mcp`, which forwards the
raw request to the bound transport handler `h` and returns its response
as a raw `Response`. -/
def matchRouteM (mount : Option String) (c : EdgeMCPConfig)
    (h : Request → Response) (req : Request) : Option RouteReply :=
  if req.method = "GET" ∧ req.path = routedPathM mount "/health" then
    some (RouteReply.ctx healthResponse)
  else if req.method = "GET" ∧ req.path = routedPathM mount "/" then
    some (RouteReply.ctx (rootInfoResponse c))
  else if req.path = routedPathM mount "/mcp" then
    some (RouteReply.raw (h req))
  else
    none

/-- The log line emitted by the logging middleware (method and URL; the
elapsed-milliseconds figure is wall-clock and not modelled). -/
def logLine (req : Request) : String :=
  req.method ++ " " ++ req.path

/-- Finish the chain for a non-OPTIONS request: staged headers are
merged into context-created responses (a matched `c.json` route or the
default `c.text` 404); a raw response (the `/mcp` pass-through) is
returned exactly as produced. -/
def finishReply (staged : List (String × String)) : Option RouteReply → Response
  | some (RouteReply.ctx r) => applyHeaders staged r
  | some (RouteReply.raw r) => r
  | none => applyHeaders staged notFoundResponse

/-- Dispatch of one request through the (possibly mounted) app: if the
middleware scope matches, the CORS middleware stages its headers and
short-circuits `OPTIONS` requests with a bare empty 204 (a raw
`Response` that never receives the staged headers); otherwise the
logging middleware (installed unless `enableLogging` is explicitly
`false`) wraps the route handlers, staged headers land on the
context-created responses only, and an unmatched path falls through to
the not-found response.  Outside the middleware scope nothing of the
inner app runs and the result is the router's plain 404. -/
def dispatchWith (mount : Option String) (c : EdgeMCPConfig)
    (h : Request → Response) (req : Request) : HandleResult :=
  if scopeMatches mount req.path then
    let staged := corsStaged c req
    if req.method = "OPTIONS" then
      { response := { status := 204, headers := [], body := Body.empty }
        logs := [] }
    else
      { response := finishReply staged (matchRouteM mount c h req)
        logs := if c.enableLogging = some false then [] else [logLine req] }
  else
    { response := notFoundResponse, logs := [] }

/-- The handler returned by `serve()`: the root (mounted) dispatch when
a non-blank base path is configured, the inner app's dispatch
otherwise. -/
def handleRequest (c : EdgeMCPConfig) (h : Request → Response)
    (req : Request) : HandleResult :=
  dispatchWith (mountBase c) c h req

/-- Dispatch through the inner app itself (`app.fetch`), always
unmounted. -/
def innerDispatch (c : EdgeMCPConfig) (h : Request → Response)
    (req : Request) : HandleResult :=
  dispatchWith none c h req

/-- The construction arguments passed to the external `McpServer`
constructor: `{ name: config.name, version: config.version || "1.0.0" }`
(plus the opaque schema adapter, not modelled). -/
structure McpServerInit where
  name : String
  version : String

/-- The factory's return value: the server handle construction data, the
inner app's dispatch, and the deferred `serve()` dispatch.  The
transport binding `transport.bind(server)` is the single `mcpHandler`
argument, taken once per factory invocation. -/
structure EdgeMCPServerResult where
  server : McpServerInit
  appHandler : Request → HandleResult
  serveHandler : Request → HandleResult

/-- `createEdgeMCPServer` from `src/mod.ts`. -/
def createEdgeMCPServer (c : EdgeMCPConfig) (mcpHandler : Request → Response) :
    EdgeMCPServerResult :=
  { server := { name := c.name, version := resolvedVersion c }
    appHandler := innerDispatch c mcpHandler
    serveHandler := handleRequest c mcpHandler }

/-- A response carries the three CORS headers, with the allow-origin
header echoing `origin`. -/
def hasCorsHeaders (r : Response) (origin : String) : Prop :=
  r.header "Access-Control-Allow-Origin" = some origin ∧
  r.header "Access-Control-Allow-Methods" = some "GET, POST, OPTIONS" ∧
  r.header "Access-Control-Allow-Headers" = some "Content-Type, Authorization"

/-! ### Concrete fixtures used by witnesses and counterexamples -/

/-- A configuration with only the required `name`, everything else
defaulted. -/
def cfgDefault : EdgeMCPConfig :=
  { name := "test-server", version := none, corsOrigins := none,
    enableLogging := none, basePath := none }

/-- A mounted configuration, `basePath: "/my-func"`. -/
def cfgMounted : EdgeMCPConfig :=
  { name := "test-server", version := none, corsOrigins := none,
    enableLogging := none, basePath := some "/my-func" }

/-- `basePath: "my-func"` (no leading slash). -/
def cfgBaseNoSlash : EdgeMCPConfig :=
  { name := "test-server", version := none, corsOrigins := none,
    enableLogging := none, basePath := some "my-func" }

/-- `basePath: "/my-func/"` (trailing slash). -/
def cfgBaseSlashes : EdgeMCPConfig :=
  { name := "test-server", version := none, corsOrigins := none,
    enableLogging := none, basePath := some "/my-func/" }

/-- `corsOrigins: []` combined with a base path. -/
def cfgMountedEmptyCors : EdgeMCPConfig :=
  { name := "test-server", version := none, corsOrigins := some (CorsOrigins.arr []),
    enableLogging := none, basePath := some "/my-func" }

/-- A blank (whitespace-only) base path. -/
def cfgBlankBase : EdgeMCPConfig :=
  { name := "test-server", version := none, corsOrigins := none,
    enableLogging := none, basePath := some "   " }

/-- A stand-in for the externally bound MCP transport handler. -/
def hStub : Request → Response :=
  fun _ => { status := 200, headers := [], body := Body.text "mcp" }

/-! ### Helper lemmas about headers, paths and dispatch -/

theorem getHeader_setHeader_self (hs : List (String × String)) (k v : String) :
    getHeader (setHeader hs k v) k = some v := by
  induction hs with
  | nil => simp [setHeader, getHeader]
  | cons p rest ih =>
      obtain ⟨k', v'⟩ := p
      by_cases h : k' = k
      · simp [setHeader, h, getHeader]
      · simp [setHeader, h, getHeader, ih]

theorem getHeader_setHeader_ne (hs : List (String × String)) (k k' v : String)
    (hne : k' ≠ k) : getHeader (setHeader hs k' v) k = getHeader hs k := by
  induction hs with
  | nil => simp [setHeader, getHeader, hne]
  | cons p rest ih =>
      obtain ⟨k0, v0⟩ := p
      by_cases h : k0 = k'
      · subst h
        have hk : k0 ≠ k := hne
        simp [setHeader, getHeader, hk]
      · simp [setHeader, h, getHeader, ih]

theorem applyHeaders_status (staged : List (String × String)) (r : Response) :
    (applyHeaders staged r).status = r.status := rfl

theorem applyHeaders_body (staged : List (String × String)) (r : Response) :
    (applyHeaders staged r).body = r.body := rfl

theorem applyHeaders_nil (r : Response) : applyHeaders [] r = r := rfl

theorem hasCors_applyCors (o : String) (r : Response) :
    hasCorsHeaders (applyHeaders (corsHeaders o) r) o := by
  unfold hasCorsHeaders Response.header applyHeaders corsHeaders
  simp only [List.foldl]
  refine ⟨?_, ?_, ?_⟩
  · rw [getHeader_setHeader_ne _ _ _ _ (by decide),
      getHeader_setHeader_ne _ _ _ _ (by decide), getHeader_setHeader_self]
  · rw [getHeader_setHeader_ne _ _ _ _ (by decide), getHeader_setHeader_self]
  · rw [getHeader_setHeader_self]

theorem no_cors_of_ct_only (r : Response) (x : String)
    (hdr : r.headers = [("Content-Type", x)]) (o : String) :
    ¬ hasCorsHeaders r o := by
  intro hc
  obtain ⟨h1, _, _⟩ := hc
  rw [Response.header, hdr] at h1
  simp only [getHeader] at h1
  rw [if_neg (by decide)] at h1
  exact Option.noConfusion h1

theorem header_ct_only_acao (st : Nat) (x : String) (b : Body) :
    Response.header ⟨st, [("Content-Type", x)], b⟩ "Access-Control-Allow-Origin" = none := by
  rw [Response.header]
  simp only [getHeader]
  rw [if_neg (by decide)]

theorem ne_append_of_length (a b t : String) (h : a.length + b.length ≠ t.length) :
    a ++ b ≠ t := by
  intro hc
  apply h
  rw [← String.length_append, hc]

theorem length_pos_of_ne_empty (s : String) (h : s ≠ "") : 0 < s.length := by
  rcases Nat.eq_zero_or_pos s.length with h0 | hp
  · exfalso
    apply h
    apply String.ext
    exact List.length_eq_zero.mp h0
  · exact hp

theorem append_right_ne (a : String) {x y : String} (hxy : x ≠ y) :
    a ++ x ≠ a ++ y := by
  intro h
  apply hxy
  have hd := congrArg String.data h
  rw [String.data_append, String.data_append] at hd
  exact String.ext (List.append_cancel_left hd)

theorem self_ne_append (a b : String) (hb : b.length ≠ 0) : a ≠ a ++ b := by
  intro h
  have := congrArg String.length h
  rw [String.length_append] at this
  omega

theorem strEndsWith_decomp (base : String) (h : strEndsWith base "/" = true) :
    base = strDropLast base ++ "/" := by
  have hsuf : ("/" : String).data <:+ base.data := List.isSuffixOf_iff_suffix.mp h
  obtain ⟨t, ht⟩ := hsuf
  apply String.ext
  rw [String.data_append]
  show base.data = base.data.dropLast ++ ("/" : String).data
  rw [← ht, show ("/" : String).data = ['/'] from rfl, List.dropLast_concat]

theorem mountStem_of_ends (base : String) (h : strEndsWith base "/" = true) :
    base = mountStem base ++ "/" := by
  unfold mountStem
  rw [if_pos h]
  exact strEndsWith_decomp base h

theorem mountStem_of_not_ends (base : String) (h : ¬ strEndsWith base "/" = true) :
    mountStem base = base := by
  unfold mountStem
  rw [if_neg h]

theorem joinPath_root (base : String) : joinPath base "/" = base := by
  unfold joinPath
  rw [if_pos rfl]

theorem joinPath_other (base sub : String) (h : sub ≠ "/") :
    joinPath base sub = mountStem base ++ sub := by
  unfold joinPath
  rw [if_neg h]

theorem scopeMatches_routedPathM (mount : Option String) (sub : String)
    (h : ∃ rest, sub.data = '/' :: rest) :
    scopeMatches mount (routedPathM mount sub) = true := by
  obtain ⟨rest, hr⟩ := h
  cases mount with
  | none => rfl
  | some base =>
      by_cases hs : sub = "/"
      · subst hs
        have h1 : routedPathM (some base) "/" = base := joinPath_root base
        rw [h1]
        show (decide (base = mountStem base) ||
          (mountStem base ++ "/").data.isPrefixOf base.data) = true
        rw [Bool.or_eq_true]
        by_cases he : strEndsWith base "/" = true
        · right
          apply List.isPrefixOf_iff_prefix.mpr
          have hd : base.data = (mountStem base ++ "/").data :=
            congrArg String.data (mountStem_of_ends base he)
          rw [hd]
        · left
          rw [mountStem_of_not_ends base he]
          simp
      · have h1 : routedPathM (some base) sub = mountStem base ++ sub :=
          joinPath_other base sub hs
        rw [h1]
        show (decide (mountStem base ++ sub = mountStem base) ||
          (mountStem base ++ "/").data.isPrefixOf (mountStem base ++ sub).data) = true
        rw [Bool.or_eq_true]
        right
        apply List.isPrefixOf_iff_prefix.mpr
        rw [String.data_append, String.data_append, hr]
        exact ⟨rest, by simp⟩

theorem routedPath_root_ne_health (mount : Option String) :
    routedPathM mount "/" ≠ routedPathM mount "/health" := by
  cases mount with
  | none => decide
  | some base =>
      have h1 : routedPathM (some base) "/" = base := joinPath_root base
      have h2 : routedPathM (some base) "/health" = mountStem base ++ "/health" :=
        joinPath_other base "/health" (by decide)
      rw [h1, h2]
      intro hc
      by_cases he : strEndsWith base "/" = true
      · exact append_right_ne (mountStem base)
          (show ("/" : String) ≠ "/health" by decide)
          ((mountStem_of_ends base he).symm.trans hc)
      · rw [mountStem_of_not_ends base he] at hc
        exact self_ne_append base "/health" (by decide) hc

theorem routedPath_mcp_ne_health (mount : Option String) :
    routedPathM mount "/mcp" ≠ routedPathM mount "/health" := by
  cases mount with
  | none => decide
  | some base =>
      have h1 : routedPathM (some base) "/mcp" = mountStem base ++ "/mcp" :=
        joinPath_other base "/mcp" (by decide)
      have h2 : routedPathM (some base) "/health" = mountStem base ++ "/health" :=
        joinPath_other base "/health" (by decide)
      rw [h1, h2]
      exact append_right_ne (mountStem base) (by decide)

theorem routedPath_mcp_ne_root (mount : Option String) :
    routedPathM mount "/mcp" ≠ routedPathM mount "/" := by
  cases mount with
  | none => decide
  | some base =>
      have h1 : routedPathM (some base) "/mcp" = mountStem base ++ "/mcp" :=
        joinPath_other base "/mcp" (by decide)
      have h2 : routedPathM (some base) "/" = base := joinPath_root base
      rw [h1, h2]
      intro hc
      by_cases he : strEndsWith base "/" = true
      · exact append_right_ne (mountStem base)
          (show ("/mcp" : String) ≠ "/" by decide)
          (hc.trans (mountStem_of_ends base he))
      · rw [mountStem_of_not_ends base he] at hc
        exact self_ne_append base "/mcp" (by decide) hc.symm

theorem matchRouteM_health (mount : Option String) (c : EdgeMCPConfig)
    (h : Request → Response) (o : Option String) :
    matchRouteM mount c h ⟨"GET", routedPathM mount "/health", o⟩ =
      some (RouteReply.ctx healthResponse) := by
  unfold matchRouteM
  rw [if_pos ⟨rfl, rfl⟩]

theorem matchRouteM_root (mount : Option String) (c : EdgeMCPConfig)
    (h : Request → Response) (o : Option String) :
    matchRouteM mount c h ⟨"GET", routedPathM mount "/", o⟩ =
      some (RouteReply.ctx (rootInfoResponse c)) := by
  unfold matchRouteM
  rw [if_neg (fun hc => routedPath_root_ne_health mount hc.2), if_pos ⟨rfl, rfl⟩]

theorem matchRouteM_mcp (mount : Option String) (c : EdgeMCPConfig)
    (h : Request → Response) (m : String) (o : Option String) :
    matchRouteM mount c h ⟨m, routedPathM mount "/mcp", o⟩ =
      some (RouteReply.raw (h ⟨m, routedPathM mount "/mcp", o⟩)) := by
  unfold matchRouteM
  rw [if_neg (fun hc => routedPath_mcp_ne_health mount hc.2),
    if_neg (fun hc => routedPath_mcp_ne_root mount hc.2), if_pos rfl]

theorem handleRequest_route (c : EdgeMCPConfig) (h : Request → Response) (req : Request)
    (hscope : scopeMatches (mountBase c) req.path = true) (hopt : ¬ req.method = "OPTIONS") :
    handleRequest c h req =
      { response := finishReply (corsStaged c req) (matchRouteM (mountBase c) c h req)
        logs := if c.enableLogging = some false then [] else [logLine req] } := by
  unfold handleRequest dispatchWith
  rw [if_pos hscope, if_neg hopt]

theorem handleRequest_options (c : EdgeMCPConfig) (h : Request → Response) (req : Request)
    (hscope : scopeMatches (mountBase c) req.path = true) (hopt : req.method = "OPTIONS") :
    handleRequest c h req =
      { response := { status := 204, headers := [], body := Body.empty }
        logs := [] } := by
  unfold handleRequest dispatchWith
  rw [if_pos hscope, if_pos hopt]

theorem hasCors_iff_applyStaged (c : EdgeMCPConfig) (req : Request) (r : Response)
    (x : String) (hdr : r.headers = [("Content-Type", x)]) :
    (hasCorsHeaders (applyHeaders (corsStaged c req) r) (requestOrigin req) ↔
      ("*" ∈ corsAllowedOrigins c ∨ requestOrigin req ∈ corsAllowedOrigins c)) := by
  by_cases hcond : ("*" ∈ corsAllowedOrigins c ∨ requestOrigin req ∈ corsAllowedOrigins c)
  · have hst : corsStaged c req = corsHeaders (requestOrigin req) := by
      unfold corsStaged
      rw [if_pos hcond]
    rw [hst]
    exact iff_of_true (hasCors_applyCors _ _) hcond
  · have hst : corsStaged c req = [] := by
      unfold corsStaged
      rw [if_neg hcond]
    rw [hst, applyHeaders_nil]
    exact iff_of_false (no_cors_of_ct_only r x hdr _) hcond

theorem handleRequest_outside (c : EdgeMCPConfig) (h : Request → Response) (req : Request)
    (hscope : ¬ scopeMatches (mountBase c) req.path = true) :
    handleRequest c h req = { response := notFoundResponse, logs := [] } := by
  unfold handleRequest dispatchWith
  rw [if_neg hscope]

/-! ### Claim theorems -/

/-- C4: for all configurations, a GET request to `/health` (prefixed by
the normalized base path when one is configured) returns HTTP 200 with
JSON body exactly `{"status":"ok"}`; the route is a pure constant: the
result does not depend on the transport handler. -/
theorem health_route_contract (c : EdgeMCPConfig) (h : Request → Response) (o : Option String) :
    (handleRequest c h ⟨"GET", routedPathM (mountBase c) "/health", o⟩).response.status = 200 ∧
    (handleRequest c h ⟨"GET", routedPathM (mountBase c) "/health", o⟩).response.body =
      Body.json (Json.obj [("status", Json.str "ok")]) ∧
    (∀ h2 : Request → Response,
      handleRequest c h ⟨"GET", routedPathM (mountBase c) "/health", o⟩ =
        handleRequest c h2 ⟨"GET", routedPathM (mountBase c) "/health", o⟩) := by
  have hscope : scopeMatches (mountBase c) (routedPathM (mountBase c) "/health") = true :=
    scopeMatches_routedPathM _ _ ⟨"health".data, rfl⟩
  rw [handleRequest_route c h ⟨"GET", routedPathM (mountBase c) "/health", o⟩ hscope
    (show ¬ ("GET" : String) = "OPTIONS" by decide), matchRouteM_health]
  refine ⟨applyHeaders_status _ _, applyHeaders_body _ _, ?_⟩
  intro h2
  rw [handleRequest_route c h2 ⟨"GET", routedPathM (mountBase c) "/health", o⟩ hscope
    (show ¬ ("GET" : String) = "OPTIONS" by decide), matchRouteM_health]

/-- C5: for all configurations, a GET request to `/` (prefixed by the
normalized base path when one is configured) returns HTTP 200 with a
JSON body containing the configured name, the resolved version (default
`"1.0.0"` when `version` is omitted), the literal status `"ok"` and the
relative endpoint links; the body is a pure function of the
configuration (independent of the transport handler), and the same
resolved version is handed to the external server constructor. -/
theorem root_info_contract (c : EdgeMCPConfig) (h : Request → Response) (o : Option String) :
    (handleRequest c h ⟨"GET", routedPathM (mountBase c) "/", o⟩).response.status = 200 ∧
    (handleRequest c h ⟨"GET", routedPathM (mountBase c) "/", o⟩).response.body =
      Body.json (Json.obj
        [("name", Json.str c.name),
         ("version", Json.str (resolvedVersion c)),
         ("status", Json.str "ok"),
         ("endpoints", Json.obj [("health", Json.str "./health"),
                                 ("mcp", Json.str "./mcp")])]) ∧
    resolvedVersion { c with version := none } = "1.0.0" ∧
    (createEdgeMCPServer c h).server = { name := c.name, version := resolvedVersion c } ∧
    (∀ h2 : Request → Response,
      handleRequest c h ⟨"GET", routedPathM (mountBase c) "/", o⟩ =
        handleRequest c h2 ⟨"GET", routedPathM (mountBase c) "/", o⟩) := by
  have hscope : scopeMatches (mountBase c) (routedPathM (mountBase c) "/") = true :=
    scopeMatches_routedPathM _ _ ⟨[], rfl⟩
  rw [handleRequest_route c h ⟨"GET", routedPathM (mountBase c) "/", o⟩ hscope
    (show ¬ ("GET" : String) = "OPTIONS" by decide), matchRouteM_root]
  refine ⟨applyHeaders_status _ _, applyHeaders_body _ _, rfl, rfl, ?_⟩
  intro h2
  rw [handleRequest_route c h2 ⟨"GET", routedPathM (mountBase c) "/", o⟩ hscope
    (show ¬ ("GET" : String) = "OPTIONS" by decide), matchRouteM_root]

theorem dispatch_response_ignores_logging (mount : Option String) (c : EdgeMCPConfig)
    (v w : Option Bool) (h : Request → Response) (req : Request) :
    (dispatchWith mount { c with enableLogging := v } h req).response =
      (dispatchWith mount { c with enableLogging := w } h req).response := by
  unfold dispatchWith
  by_cases hs : scopeMatches mount req.path = true
  · rw [if_pos hs, if_pos hs]
    by_cases ho : req.method = "OPTIONS"
    · rw [if_pos ho, if_pos ho]
    · rw [if_neg ho, if_neg ho]
      rfl
  · rw [if_neg hs, if_neg hs]

theorem handleRequest_logs_disabled (c : EdgeMCPConfig) (h : Request → Response)
    (req : Request) :
    (handleRequest { c with enableLogging := some false } h req).logs = [] := by
  unfold handleRequest dispatchWith
  by_cases hs : scopeMatches (mountBase { c with enableLogging := some false }) req.path = true
  · rw [if_pos hs]
    by_cases ho : req.method = "OPTIONS"
    · rw [if_pos ho]
    · rw [if_neg ho]
      show (if (some false : Option Bool) = some false then ([] : List String)
        else [logLine req]) = []
      rw [if_pos rfl]
  · rw [if_neg hs]

/-- C7: the logging middleware never alters the response: for every
configuration and request, the response is the same whatever the
`enableLogging` flag is; with `enableLogging: false` no log line is
emitted at all, and the health endpoint still returns 200. -/
theorem logging_never_alters_response (c : EdgeMCPConfig) (h : Request → Response)
    (req : Request) (v : Option Bool) :
    (handleRequest { c with enableLogging := v } h req).response =
      (handleRequest { c with enableLogging := some false } h req).response ∧
    (handleRequest { c with enableLogging := some false } h req).logs = [] ∧
    (∀ o, (handleRequest { c with enableLogging := some false } h
        ⟨"GET",
          routedPathM (mountBase { c with enableLogging := some false }) "/health",
          o⟩).response.status = 200) := by
  refine ⟨?_, handleRequest_logs_disabled c h req, ?_⟩
  · unfold handleRequest
    have hmv : mountBase { c with enableLogging := v } = mountBase c := rfl
    have hmw : mountBase { c with enableLogging := some false } = mountBase c := rfl
    rw [hmv, hmw]
    exact dispatch_response_ignores_logging (mountBase c) c v (some false) h req
  · intro o
    have hscope : scopeMatches (mountBase { c with enableLogging := some false })
        (routedPathM (mountBase { c with enableLogging := some false }) "/health") = true :=
      scopeMatches_routedPathM _ _ ⟨"health".data, rfl⟩
    rw [handleRequest_route _ h _ hscope (show ¬ ("GET" : String) = "OPTIONS" by decide),
      matchRouteM_health]
    exact applyHeaders_status _ _

/-- C8: for every HTTP method, a request to `/mcp` (at its mounted path)
is forwarded as the raw incoming request, unmodified, to the transport
handler bound once per factory invocation, and the raw response it
produces is returned fully unmodified (it bypasses the context, so not
even the staged CORS headers are added); the deferred `serve()` handler
is exactly this dispatch closed over the one bound handler. -/
theorem mcp_route_forwards (c : EdgeMCPConfig) (h : Request → Response)
    (m : String) (o : Option String) :
    matchRouteM (mountBase c) c h ⟨m, routedPathM (mountBase c) "/mcp", o⟩ =
      some (RouteReply.raw (h ⟨m, routedPathM (mountBase c) "/mcp", o⟩)) ∧
    (createEdgeMCPServer c h).serveHandler = handleRequest c h ∧
    (¬ m = "OPTIONS" →
      (handleRequest c h ⟨m, routedPathM (mountBase c) "/mcp", o⟩).response =
        h ⟨m, routedPathM (mountBase c) "/mcp", o⟩) := by
  refine ⟨matchRouteM_mcp _ _ _ _ _, rfl, ?_⟩
  intro hm
  have hscope : scopeMatches (mountBase c) (routedPathM (mountBase c) "/mcp") = true :=
    scopeMatches_routedPathM _ _ ⟨"mcp".data, rfl⟩
  rw [handleRequest_route c h ⟨m, routedPathM (mountBase c) "/mcp", o⟩ hscope hm,
    matchRouteM_mcp]
  rfl

/-- Witness for C8 at a concrete configuration and request: a POST to
`/mcp` gets the stub transport handler's response back verbatim. -/
theorem mcp_route_forwards_witness :
    (handleRequest cfgDefault hStub ⟨"POST", "/mcp", none⟩).response =
      { status := 200, headers := [], body := Body.text "mcp" } := by
  have t := mcp_route_forwards cfgDefault hStub "POST" none
  exact t.2.2 (by decide)

/-- C1: the CORS middleware reads the `Origin` header (absent treated as
`*`), computes the allowed set (bare non-empty string wrapped into a
one-element set, array taken as is, default `{"*"}`), and stages the
three CORS response headers — echoing the request origin — exactly when
the allowed set contains `*` or the request's origin verbatim; the
staged headers materialize on the context-created responses (health,
root info, 404), where they are present if and only if the condition
holds (the raw OPTIONS 204 and the `/mcp` pass-through bypass the
context and never receive them). -/
theorem cors_middleware_contract (c : EdgeMCPConfig) (req : Request) :
    (req.origin = none → requestOrigin req = "*") ∧
    corsAllowedOrigins { c with corsOrigins := none } = ["*"] ∧
    (∀ s : String, ¬ s = "" →
      corsAllowedOrigins { c with corsOrigins := some (CorsOrigins.str s) } = [s]) ∧
    (∀ l : List String,
      corsAllowedOrigins { c with corsOrigins := some (CorsOrigins.arr l) } = l) ∧
    (corsStaged c req = corsHeaders (requestOrigin req) ↔
      ("*" ∈ corsAllowedOrigins c ∨ requestOrigin req ∈ corsAllowedOrigins c)) ∧
    (∀ h : Request → Response, scopeMatches (mountBase c) req.path = true →
      ¬ req.method = "OPTIONS" → ¬ req.path = routedPathM (mountBase c) "/mcp" →
      (hasCorsHeaders (handleRequest c h req).response (requestOrigin req) ↔
        ("*" ∈ corsAllowedOrigins c ∨ requestOrigin req ∈ corsAllowedOrigins c))) := by
  refine ⟨?_, rfl, ?_, fun l => rfl, ?_, ?_⟩
  · intro ho
    unfold requestOrigin
    rw [ho]
  · intro s hs
    show (if s = "" then ["*"] else [s]) = [s]
    rw [if_neg hs]
  · unfold corsStaged
    by_cases hcond : ("*" ∈ corsAllowedOrigins c ∨ requestOrigin req ∈ corsAllowedOrigins c)
    · rw [if_pos hcond]
      exact iff_of_true rfl hcond
    · rw [if_neg hcond]
      exact iff_of_false (fun he => List.noConfusion he) hcond
  · intro h hscope hopt hpath
    rw [handleRequest_route c h req hscope hopt]
    unfold matchRouteM
    by_cases b1 : (req.method = "GET" ∧ req.path = routedPathM (mountBase c) "/health")
    · rw [if_pos b1]
      exact hasCors_iff_applyStaged c req healthResponse "application/json" rfl
    · rw [if_neg b1]
      by_cases b2 : (req.method = "GET" ∧ req.path = routedPathM (mountBase c) "/")
      · rw [if_pos b2]
        exact hasCors_iff_applyStaged c req (rootInfoResponse c) "application/json" rfl
      · rw [if_neg b2, if_neg hpath]
        exact hasCors_iff_applyStaged c req notFoundResponse "text/plain; charset=UTF-8" rfl

/-- Witness for C1: with the default configuration and a request
carrying `Origin: https://example.com`, the dispatched health response
carries the three CORS headers echoing that origin. -/
theorem cors_middleware_contract_witness :
    hasCorsHeaders
      (handleRequest cfgDefault hStub ⟨"GET", "/health", some "https://example.com"⟩).response
      "https://example.com" := by
  have t := cors_middleware_contract cfgDefault ⟨"GET", "/health", some "https://example.com"⟩
  exact (t.2.2.2.2.2 hStub (by decide) (by decide) (by decide)).mpr (by decide)

/-- C9: an empty-string `corsOrigins` is falsy in the source's truthy
test, so the allowed set defaults to `{"*"}` exactly as if `corsOrigins`
were unset, and the middleware stages the three CORS headers for every
request regardless of its `Origin` header; every context-created
response in the middleware's scope (health, root info, 404) carries
them. -/
theorem empty_string_cors_like_unset (c : EdgeMCPConfig) (req : Request) :
    corsAllowedOrigins { c with corsOrigins := some (CorsOrigins.str "") } = ["*"] ∧
    corsAllowedOrigins { c with corsOrigins := some (CorsOrigins.str "") } =
      corsAllowedOrigins { c with corsOrigins := none } ∧
    corsStaged { c with corsOrigins := some (CorsOrigins.str "") } req =
      corsHeaders (requestOrigin req) ∧
    (∀ h : Request → Response,
      scopeMatches (mountBase { c with corsOrigins := some (CorsOrigins.str "") })
        req.path = true →
      ¬ req.method = "OPTIONS" →
      ¬ req.path = routedPathM
          (mountBase { c with corsOrigins := some (CorsOrigins.str "") }) "/mcp" →
      hasCorsHeaders
        (handleRequest { c with corsOrigins := some (CorsOrigins.str "") } h req).response
        (requestOrigin req)) := by
  have hmem : "*" ∈ corsAllowedOrigins { c with corsOrigins := some (CorsOrigins.str "") } := by
    simp [corsAllowedOrigins]
  have hst : corsStaged { c with corsOrigins := some (CorsOrigins.str "") } req =
      corsHeaders (requestOrigin req) := by
    unfold corsStaged
    rw [if_pos (Or.inl hmem)]
  refine ⟨rfl, rfl, hst, ?_⟩
  intro h hscope hopt hpath
  rw [handleRequest_route _ h req hscope hopt]
  unfold matchRouteM
  by_cases b1 : (req.method = "GET" ∧ req.path = routedPathM
      (mountBase { c with corsOrigins := some (CorsOrigins.str "") }) "/health")
  · rw [if_pos b1, hst]
    exact hasCors_applyCors _ _
  · rw [if_neg b1]
    by_cases b2 : (req.method = "GET" ∧ req.path = routedPathM
        (mountBase { c with corsOrigins := some (CorsOrigins.str "") }) "/")
    · rw [if_pos b2, hst]
      exact hasCors_applyCors _ _
    · rw [if_neg b2, if_neg hpath, hst]
      exact hasCors_applyCors _ _

/-- Witness for C9: empty-string `corsOrigins`, a GET with no `Origin`
header — the health response carries the CORS headers with the wildcard
origin. -/
theorem empty_string_cors_like_unset_witness :
    hasCorsHeaders
      (handleRequest { cfgDefault with corsOrigins := some (CorsOrigins.str "") } hStub
        ⟨"GET", "/health", none⟩).response "*" := by
  have t := empty_string_cors_like_unset cfgDefault ⟨"GET", "/health", none⟩
  exact t.2.2.2 hStub (by decide) (by decide) (by decide)

/-- Counterexample to C3 as stated: even for the default configuration,
whose allowed set contains `*` and the request carries an Origin, the
OPTIONS 204 is a bare `new Response(null, {status: 204})` with NO
headers — the three c.header-staged CORS headers are never merged into
it; and under a mounted base path an OPTIONS request to a path outside
the mount is a plain 404, not a 204. -/
theorem options_claim_counterexample :
    (handleRequest cfgDefault hStub
      ⟨"OPTIONS", "/health", some "https://example.com"⟩).response.headers = [] ∧
    (handleRequest cfgMounted hStub ⟨"OPTIONS", "/outside", none⟩).response.status = 404 := by
  exact ⟨by decide, by decide⟩

/-- C3 (amended): for every configuration, an OPTIONS request whose path
is within the middleware's scope (any path when unmounted, the mount
point or below when mounted) returns a bare HTTP 204 with an empty body
and no headers at all — the c.header-staged CORS headers are not merged
into the raw short-circuit response — emits no log line, and never
invokes the downstream handlers (the result is independent of the
transport handler); outside a mounted scope an OPTIONS request is the
router's plain 404. -/
theorem options_short_circuit (c : EdgeMCPConfig) (h : Request → Response) (req : Request)
    (hm : req.method = "OPTIONS") :
    (scopeMatches (mountBase c) req.path = true →
      (handleRequest c h req).response =
        { status := 204, headers := [], body := Body.empty } ∧
      (handleRequest c h req).logs = [] ∧
      (∀ h2 : Request → Response, handleRequest c h req = handleRequest c h2 req)) ∧
    (¬ scopeMatches (mountBase c) req.path = true →
      handleRequest c h req = { response := notFoundResponse, logs := [] }) := by
  constructor
  · intro hs
    rw [handleRequest_options c h req hs hm]
    refine ⟨rfl, rfl, ?_⟩
    intro h2
    rw [handleRequest_options c h2 req hs hm]
  · intro hs
    exact handleRequest_outside c h req hs

/-- Witness for C3 (amended) at a concrete input: OPTIONS on an
arbitrary path of the default (unmounted) configuration yields the bare
204 with no headers. -/
theorem options_short_circuit_witness :
    (handleRequest cfgDefault hStub
      ⟨"OPTIONS", "/anything", some "https://example.com"⟩).response =
      { status := 204, headers := [], body := Body.empty } := by
  have t := options_short_circuit cfgDefault hStub
    ⟨"OPTIONS", "/anything", some "https://example.com"⟩ rfl
  exact (t.1 (by decide)).1

/-- Counterexample to C10 as stated: with `corsOrigins: []` AND a
configured base path, an OPTIONS request to `/health` (outside the
mount) returns 404, not 204 — so "every OPTIONS request still returns
HTTP 204" fails for such configurations. -/
theorem empty_array_options_not_universal :
    (handleRequest cfgMountedEmptyCors hStub ⟨"OPTIONS", "/health", none⟩).response.status = 404 := by
  decide

/-- C10 (amended): with `corsOrigins: []` the allowed set is empty, the
middleware never stages the CORS headers, and responses of the built-in
routes carry no `Access-Control-Allow-Origin`; an OPTIONS request whose
path is within the middleware's scope still returns exactly a bare 204
with empty body (and no log line), while outside the mounted scope the
dispatch is the router's plain 404. -/
theorem empty_array_cors_behavior (c : EdgeMCPConfig) (h : Request → Response) (req : Request) :
    corsAllowedOrigins { c with corsOrigins := some (CorsOrigins.arr []) } = [] ∧
    corsStaged { c with corsOrigins := some (CorsOrigins.arr []) } req = [] ∧
    (req.method = "OPTIONS" →
      scopeMatches (mountBase { c with corsOrigins := some (CorsOrigins.arr []) })
        req.path = true →
      (handleRequest { c with corsOrigins := some (CorsOrigins.arr []) } h req).response =
        { status := 204, headers := [], body := Body.empty } ∧
      (handleRequest { c with corsOrigins := some (CorsOrigins.arr []) } h req).logs = []) ∧
    (¬ scopeMatches (mountBase { c with corsOrigins := some (CorsOrigins.arr []) })
        req.path = true →
      handleRequest { c with corsOrigins := some (CorsOrigins.arr []) } h req =
        { response := notFoundResponse, logs := [] }) ∧
    (¬ req.method = "OPTIONS" →
      scopeMatches (mountBase { c with corsOrigins := some (CorsOrigins.arr []) })
        req.path = true →
      ¬ req.path = routedPathM
          (mountBase { c with corsOrigins := some (CorsOrigins.arr []) }) "/mcp" →
      (handleRequest { c with corsOrigins := some (CorsOrigins.arr []) } h req).response.header
        "Access-Control-Allow-Origin" = none) := by
  have hst : corsStaged { c with corsOrigins := some (CorsOrigins.arr []) } req = [] := by
    unfold corsStaged
    rw [if_neg (by simp [corsAllowedOrigins])]
  refine ⟨rfl, hst, ?_, ?_, ?_⟩
  · intro hm hs
    rw [handleRequest_options _ h req hs hm]
    exact ⟨rfl, rfl⟩
  · intro hs
    exact handleRequest_outside _ h req hs
  · intro hm hs hpath
    rw [handleRequest_route _ h req hs hm, hst]
    unfold matchRouteM
    by_cases b1 : (req.method = "GET" ∧ req.path = routedPathM
        (mountBase { c with corsOrigins := some (CorsOrigins.arr []) }) "/health")
    · rw [if_pos b1]
      exact header_ct_only_acao 200 "application/json" _
    · rw [if_neg b1]
      by_cases b2 : (req.method = "GET" ∧ req.path = routedPathM
          (mountBase { c with corsOrigins := some (CorsOrigins.arr []) }) "/")
      · rw [if_pos b2]
        exact header_ct_only_acao 200 "application/json" _
      · rw [if_neg b2, if_neg hpath]
        exact header_ct_only_acao 404 "text/plain; charset=UTF-8" _

/-- Witness for C10 (amended) at a concrete input: unmounted empty-array
configuration, OPTIONS to `/health` yields exactly the bare 204. -/
theorem empty_array_cors_behavior_witness :
    (handleRequest { cfgDefault with corsOrigins := some (CorsOrigins.arr []) } hStub
      ⟨"OPTIONS", "/health", none⟩).response =
      { status := 204, headers := [], body := Body.empty } := by
  have t := empty_array_cors_behavior cfgDefault hStub ⟨"OPTIONS", "/health", none⟩
  exact (t.2.2.1 rfl (by decide)).1

theorem scopeMatches_none (p : String) : scopeMatches none p = true := rfl

/-- C6: a configuration whose base path is absent or blank after
trimming stays Unmounted and no error is raised (the factory is total):
the deferred handler is exactly the inner router's dispatch, `/health`
and `/mcp` are reachable unprefixed, and neither is reachable under any
non-empty prefix. -/
theorem blank_basePath_unmounted (c : EdgeMCPConfig) (h : Request → Response)
    (hb : c.basePath = none ∨ ∃ bp, c.basePath = some bp ∧ jsTrim bp = "") :
    mountBase c = none ∧
    (∀ req, handleRequest c h req = innerDispatch c h req) ∧
    (∀ o, (handleRequest c h ⟨"GET", "/health", o⟩).response.status = 200) ∧
    (∀ o, (handleRequest c h ⟨"POST", "/mcp", o⟩).response.status =
      (h ⟨"POST", "/mcp", o⟩).status) ∧
    (∀ pre o, ¬ pre = "" →
      (handleRequest c h ⟨"GET", pre ++ "/health", o⟩).response.status = 404) ∧
    (∀ pre o, ¬ pre = "" →
      (handleRequest c h ⟨"POST", pre ++ "/mcp", o⟩).response.status = 404) := by
  have hm : mountBase c = none := by
    rcases hb with hnone | ⟨bp, hbp, htrim⟩
    · unfold mountBase
      rw [hnone]
    · unfold mountBase
      rw [hbp]
      show (if bp ≠ "" ∧ jsTrim bp ≠ "" then some (normalizeBase bp) else none) = none
      exact if_neg (fun hc => hc.2 htrim)
  have l7 : ("/health" : String).length = 7 := rfl
  have l4 : ("/mcp" : String).length = 4 := rfl
  have l1 : ("/" : String).length = 1 := rfl
  refine ⟨hm, ?_, ?_, ?_, ?_, ?_⟩
  · intro req
    unfold handleRequest innerDispatch
    rw [hm]
  · intro o
    unfold handleRequest
    rw [hm]
    unfold dispatchWith
    rw [if_pos (scopeMatches_none _), if_neg (show ¬ ("GET" : String) = "OPTIONS" by decide)]
    have hmr : matchRouteM none c h ⟨"GET", "/health", o⟩ =
        some (RouteReply.ctx healthResponse) := by
      unfold matchRouteM
      rw [if_pos ⟨rfl, rfl⟩]
    rw [hmr]
    exact applyHeaders_status _ _
  · intro o
    unfold handleRequest
    rw [hm]
    unfold dispatchWith
    rw [if_pos (scopeMatches_none _), if_neg (show ¬ ("POST" : String) = "OPTIONS" by decide)]
    have hmr : matchRouteM none c h ⟨"POST", "/mcp", o⟩ =
        some (RouteReply.raw (h ⟨"POST", "/mcp", o⟩)) := matchRouteM_mcp none c h "POST" o
    rw [hmr]
    rfl
  · intro pre o hpre
    have hpos : 0 < pre.length := length_pos_of_ne_empty pre hpre
    unfold handleRequest
    rw [hm]
    unfold dispatchWith
    rw [if_pos (scopeMatches_none _), if_neg (show ¬ ("GET" : String) = "OPTIONS" by decide)]
    have n3 : ¬ ({ method := "GET", path := pre ++ "/health", origin := o } : Request).path =
        routedPathM none "/mcp" :=
      fun hc => ne_append_of_length pre "/health" "/mcp" (by rw [l7, l4]; omega) hc
    have hmr : matchRouteM none c h ⟨"GET", pre ++ "/health", o⟩ = none := by
      unfold matchRouteM
      rw [if_neg (fun hc => ne_append_of_length pre "/health" "/health"
            (by rw [l7]; omega) hc.2),
        if_neg (fun hc => ne_append_of_length pre "/health" "/"
            (by rw [l7, l1]; omega) hc.2),
        if_neg n3]
    rw [hmr]
    exact applyHeaders_status _ _
  · intro pre o hpre
    have hpos : 0 < pre.length := length_pos_of_ne_empty pre hpre
    unfold handleRequest
    rw [hm]
    unfold dispatchWith
    rw [if_pos (scopeMatches_none _), if_neg (show ¬ ("POST" : String) = "OPTIONS" by decide)]
    have n3 : ¬ ({ method := "POST", path := pre ++ "/mcp", origin := o } : Request).path =
        routedPathM none "/mcp" :=
      fun hc => ne_append_of_length pre "/mcp" "/mcp" (by rw [l4]; omega) hc
    have hmr : matchRouteM none c h ⟨"POST", pre ++ "/mcp", o⟩ = none := by
      unfold matchRouteM
      rw [if_neg (fun hc => absurd hc.1 (show ¬ ("POST" : String) = "GET" by decide)),
        if_neg (fun hc => absurd hc.1 (show ¬ ("POST" : String) = "GET" by decide)),
        if_neg n3]
    rw [hmr]
    exact applyHeaders_status _ _

/-- Witness for C6 at a concrete input: a whitespace-only base path
stays Unmounted, `/health` answers 200 unprefixed, and a prefixed
`/pre/health` is 404. -/
theorem blank_basePath_unmounted_witness :
    mountBase cfgBlankBase = none ∧
    (handleRequest cfgBlankBase hStub ⟨"GET", "/health", none⟩).response.status = 200 ∧
    (handleRequest cfgBlankBase hStub ⟨"GET", "/pre/health", none⟩).response.status = 404 := by
  have t := blank_basePath_unmounted cfgBlankBase hStub (Or.inr ⟨"   ", rfl, by decide⟩)
  exact ⟨t.1, t.2.2.1 none, t.2.2.2.2.1 "/pre" none (by decide)⟩

/-- Counterexample to C2 as stated: under `basePath: "/my-func"` a GET
to `/my-func/` (trailing slash) is a 404 — the root info route is
mounted at `/my-func`, not `/my-func/` — and normalization does not
enforce "exactly one leading slash": `"//my-func"` is left with two. -/
theorem basePath_claim_counterexample :
    (handleRequest cfgMounted hStub ⟨"GET", "/my-func/", none⟩).response.status = 404 ∧
    normalizeBase "//my-func" = "//my-func" := by
  exact ⟨by decide, by decide⟩

/-- C2 (amended): normalization trims, prepends a leading `/` when
absent, and strips one trailing `/` unless the path is exactly `/`;
`basePath: "my-func"` and `basePath: "/my-func/"` both normalize to
`/my-func` and produce identical routing, with the routes reachable at
`/my-func/health`, `/my-func` (root info) and `/my-func/mcp`. -/
theorem basePath_normalization_equiv :
    normalizeBase "my-func" = "/my-func" ∧
    normalizeBase "/my-func/" = "/my-func" ∧
    mountBase cfgBaseNoSlash = some "/my-func" ∧
    mountBase cfgBaseSlashes = some "/my-func" ∧
    (∀ (h : Request → Response) (req : Request),
      handleRequest cfgBaseNoSlash h req = handleRequest cfgBaseSlashes h req) ∧
    (∀ (h : Request → Response) (o : Option String),
      (handleRequest cfgBaseNoSlash h ⟨"GET", "/my-func/health", o⟩).response.status = 200 ∧
      (handleRequest cfgBaseNoSlash h ⟨"GET", "/my-func/health", o⟩).response.body =
        Body.json (Json.obj [("status", Json.str "ok")])) ∧
    (∀ (h : Request → Response) (o : Option String),
      (handleRequest cfgBaseNoSlash h ⟨"GET", "/my-func", o⟩).response.status = 200 ∧
      (handleRequest cfgBaseNoSlash h ⟨"GET", "/my-func", o⟩).response.body =
        Body.json (rootInfoJson cfgBaseNoSlash)) ∧
    (∀ (h : Request → Response) (o : Option String),
      (handleRequest cfgBaseNoSlash h ⟨"POST", "/my-func/mcp", o⟩).response.status =
        (h ⟨"POST", "/my-func/mcp", o⟩).status) := by
  have hm1 : mountBase cfgBaseNoSlash = some "/my-func" := by decide
  have hm2 : mountBase cfgBaseSlashes = some "/my-func" := by decide
  refine ⟨by decide, by decide, hm1, hm2, ?_, ?_, ?_, ?_⟩
  · intro h req
    unfold handleRequest
    rw [hm1, hm2]
    unfold dispatchWith
    by_cases hs : scopeMatches (some "/my-func") req.path = true
    · rw [if_pos hs, if_pos hs]
      by_cases ho : req.method = "OPTIONS"
      · rw [if_pos ho, if_pos ho]
      · rw [if_neg ho, if_neg ho]
        rfl
    · rw [if_neg hs, if_neg hs]
  · intro h o
    rw [handleRequest_route cfgBaseNoSlash h ⟨"GET", "/my-func/health", o⟩
        (show scopeMatches (mountBase cfgBaseNoSlash) "/my-func/health" = true by decide)
        (show ¬ ("GET" : String) = "OPTIONS" by decide)]
    have hmr : matchRouteM (mountBase cfgBaseNoSlash) cfgBaseNoSlash h
        ⟨"GET", "/my-func/health", o⟩ = some (RouteReply.ctx healthResponse) :=
      matchRouteM_health (mountBase cfgBaseNoSlash) cfgBaseNoSlash h o
    rw [hmr]
    exact ⟨applyHeaders_status _ _, applyHeaders_body _ _⟩
  · intro h o
    rw [handleRequest_route cfgBaseNoSlash h ⟨"GET", "/my-func", o⟩
        (show scopeMatches (mountBase cfgBaseNoSlash) "/my-func" = true by decide)
        (show ¬ ("GET" : String) = "OPTIONS" by decide)]
    have hmr : matchRouteM (mountBase cfgBaseNoSlash) cfgBaseNoSlash h
        ⟨"GET", "/my-func", o⟩ = some (RouteReply.ctx (rootInfoResponse cfgBaseNoSlash)) :=
      matchRouteM_root (mountBase cfgBaseNoSlash) cfgBaseNoSlash h o
    rw [hmr]
    exact ⟨applyHeaders_status _ _, applyHeaders_body _ _⟩
  · intro h o
    rw [handleRequest_route cfgBaseNoSlash h ⟨"POST", "/my-func/mcp", o⟩
        (show scopeMatches (mountBase cfgBaseNoSlash) "/my-func/mcp" = true by decide)
        (show ¬ ("POST" : String) = "OPTIONS" by decide)]
    have hmr : matchRouteM (mountBase cfgBaseNoSlash) cfgBaseNoSlash h
        ⟨"POST", "/my-func/mcp", o⟩ =
          some (RouteReply.raw (h ⟨"POST", "/my-func/mcp", o⟩)) :=
      matchRouteM_mcp (mountBase cfgBaseNoSlash) cfgBaseNoSlash h "POST" o
    rw [hmr]
    rfl
